import Mathlib

/-!
Verification of BluePyEfe core: `bluepyefe/cell.py` and
`bluepyefe/ecode/sineSpec.py`, shallowly embedded in Lean.

Python floats are modelled as `ℚ` in the computable parts (the stimulus
interpretation and cell aggregation code performs only field arithmetic,
comparisons and rounding) and as `ℝ` in the part that evaluates the
transcendental sine waveform (`SineSpec.generate`).  A Python run-time
error (TypeError, IndexError, ZeroDivisionError, unbound local) is
modelled as `none` / an explicit error constructor.  A metadata key that
is absent and a key that is present with value `None` take the same
branch everywhere in this code (`"k" in d and d["k"] is not None`), so
both are modelled as `Option.none`.
-/

namespace BluePyEfe

/-! ## Data model: recordings and cells (`cell.py`) -/

/-- One recording of a cell, with the fields that `cell.py` reads or
writes: the protocol name, stimulus amplitude `amp`, holding current
`hypamp`, the spike count (`None` until features are extracted), and the
relative amplitudes (`None` until `compute_relative_amp`). -/
structure Rec where
  protocol_name : String
  amp : ℚ
  hypamp : ℚ
  spikecount : Option ℕ
  amp_rel : Option ℚ
  hypamp_rel : Option ℚ
  deriving DecidableEq, Repr

/-- A cell: a name, its recordings, and the derived rheobase
(`None` until computed). -/
structure Cell where
  name : String
  recordings : List Rec
  rheobase : Option ℚ
  deriving DecidableEq, Repr

/-- The guard of the amplitude-collecting loop in `Cell.compute_rheobase`:
`rec.protocol_name in protocols_rheobase` and
`rec.spikecount is not None and rec.spikecount > 0`. -/
def qualifies (protocols_rheobase : List String) (r : Rec) : Bool :=
  decide (r.protocol_name ∈ protocols_rheobase) &&
    (match r.spikecount with
     | some n => decide (0 < n)
     | none => false)

/-- `Cell.compute_rheobase`: collect the amplitude of every recording in
the designated protocol set with at least one spike; if any were
collected, set `rheobase` to their minimum (`numpy.min`), else leave the
cell untouched. -/
def compute_rheobase (c : Cell) (protocols_rheobase : List String) : Cell :=
  let amps := (c.recordings.filter (qualifies protocols_rheobase)).map Rec.amp
  match amps with
  | [] => c
  | a :: rest => { c with rheobase := some (rest.foldl min a) }

/-- `SineSpec.compute_relative_amp` (per recording):
`amp_rel = 100 * amp / amp_threshold`,
`hypamp_rel = 100 * hypamp / amp_threshold`. -/
def rec_compute_relative_amp (amp_threshold : ℚ) (r : Rec) : Rec :=
  { r with
    amp_rel := some (100 * r.amp / amp_threshold)
    hypamp_rel := some (100 * r.hypamp / amp_threshold) }

/-- `Cell.compute_relative_amp`: the source guard is
`self.rheobase not in (0.0, None, False, numpy.nan)`.  Over `ℚ` (no NaN;
`False == 0.0` in Python, so `False` adds nothing) this is: `rheobase`
defined and nonzero.  If it holds, every recording gets its relative
amplitudes computed; otherwise a warning is logged (second component
`true`) and `rheobase` is reset to `None`. -/
def cell_compute_relative_amp (c : Cell) : Cell × Bool :=
  match c.rheobase with
  | some r =>
    if r = 0 then ({ c with rheobase := none }, true)
    else ({ c with recordings := c.recordings.map (rec_compute_relative_amp r) }, false)
  | none => ({ c with rheobase := none }, true)

/-! ## Reader dispatch (`Cell.reader`) -/

/-- Outcome of `Cell.reader` dispatch.  `nameError` models the Python
`UnboundLocalError` reached when the metadata has neither `v_file` nor
`filepath` and the substring tests touch the unbound local `filename`;
`unknownFormatError` is the documented
"The format of the files is unknown and no custom reader were provided."
exception. -/
inductive ReaderOutcome where
  | custom
  | axon
  | igor
  | nwb
  | unknownFormatError
  | nameError
  deriving DecidableEq, Repr

/-- Python's substring test `needle in hay`. -/
def strContains (needle hay : String) : Bool :=
  (List.range (hay.toList.length + 1)).any
    (fun i => decide ((hay.toList.drop i).take needle.toList.length = needle.toList))

/-- Python's suffix test, used only to state the spec's claim that
dispatch is by file-name suffix. -/
def strEndsWith (suffix hay : String) : Bool :=
  decide (hay.toList.drop (hay.toList.length - suffix.toList.length) = suffix.toList)

/-- `Cell.reader`: resolve the file name from `v_file`, else `filepath`
(if neither key is present `filename` stays unbound); a custom reader,
when given, is used before the file name is ever touched; otherwise the
first of the substring tests `".abf" in filename`, `".ibw" in filename`,
`".nwb" in filename` selects the format reader, and if none matches the
documented unknown-format exception is raised. -/
def reader (hasCustomReader : Bool) (v_file filepath : Option String) : ReaderOutcome :=
  let filename : Option String :=
    match v_file with
    | some f => some f
    | none => filepath
  if hasCustomReader then ReaderOutcome.custom
  else
    match filename with
    | none => ReaderOutcome.nameError
    | some f =>
      if strContains ".abf" f then ReaderOutcome.axon
      else if strContains ".ibw" f then ReaderOutcome.igor
      else if strContains ".nwb" f then ReaderOutcome.nwb
      else ReaderOutcome.unknownFormatError

/-! ## SineSpec stimulus interpretation (`sineSpec.py`, `interpret`) -/

/-- Metadata mapping (`config_data` / `reader_data`) restricted to the
keys `SineSpec.interpret` consults.  `none` covers both an absent key
and a key present with value `None`, which take the same branch in
`"k" in d and d["k"] is not None`. -/
structure CfgData where
  ton : Option ℚ
  toff : Option ℚ
  amp : Option ℚ
  hypamp : Option ℚ
  deriving DecidableEq, Repr

/-- The fields of a `SineSpec` instance after a successful
`interpret`, plus the warnings logged along the way. -/
structure InterpResult where
  ton : ℚ
  toff : ℚ
  tend : ℚ
  amp : ℚ
  hypamp : ℚ
  dt : ℚ
  warnings : List String
  deriving DecidableEq, Repr

/-- Python 3 `round` to an integer: nearest, ties to even. -/
def pyRound (q : ℚ) : ℤ :=
  let f := ⌊q⌋
  if q - f < 1/2 then f
  else if 1/2 < q - f then f + 1
  else if Even f then f else f + 1

/-- Python list indexing `l[i]`: negative indices count from the end;
out of range raises (modelled as `none`). -/
def pyGetIdx (l : List ℚ) (i : ℤ) : Option ℚ :=
  if 0 ≤ i then l.get? i.toNat
  else if 0 ≤ (l.length : ℤ) + i then l.get? ((l.length : ℤ) + i).toNat
  else none

def tonWarning : String := "ton not specified, set to 150ms"

def toffWarning : String := "toff not specified, set to 5100ms"

/-- The `ton` branch of `interpret`: the rounded index
`int(round(config_data["ton"] / dt))` when `"ton"` is present and not
null, else the fallback index `150`. -/
def tonIdx0 (config_data : CfgData) (dt : ℚ) : ℤ :=
  match config_data.ton with
  | some v => pyRound (v / dt)
  | none => 150

/-- Warning emitted by the `ton` branch of `interpret`. -/
def tonWarnings (config_data : CfgData) : List String :=
  match config_data.ton with
  | some _ => []
  | none => [tonWarning]

/-- The value of `self.ton` after the `toff` branch of `interpret`: when
`"toff"` is present and not null, the `ton` index is kept; in the
fallback arm the source assigns `self.ton = 5100` (not `self.toff`),
overwriting the `ton` index. -/
def tonIdxAfterToff (config_data : CfgData) (dt : ℚ) : ℤ :=
  match config_data.toff with
  | some _ => tonIdx0 config_data dt
  | none => 5100

/-- The value of `self.toff` after the `toff` branch of `interpret`:
the rounded index `int(round(config_data["toff"] / dt))` when `"toff"`
is present and not null; in the fallback arm nothing is ever assigned
to `self.toff`, which therefore stays `None`. -/
def toffIdxOpt (config_data : CfgData) (dt : ℚ) : Option ℤ :=
  match config_data.toff with
  | some v => some (pyRound (v / dt))
  | none => none

/-- Warning emitted by the `toff` branch of `interpret`. -/
def toffWarnings (config_data : CfgData) : List String :=
  match config_data.toff with
  | some _ => []
  | none => [toffWarning]

/-- The `# hypamp` block of `interpret`: `config_data["hypamp"]` if
present and not null, else `reader_data["hypamp"]` likewise, else the
inferred `base_current(current)` (the estimator `bc` comes from
`ecode/tools.py`, outside this repository slice). -/
def resolveHypamp (bc : List ℚ → ℚ) (current : List ℚ)
    (config_data reader_data : CfgData) : ℚ :=
  match config_data.hypamp with
  | some v => v
  | none =>
    match reader_data.hypamp with
    | some v => v
    | none => bc current

/-- The `# amp` block of `interpret`: `config_data["amp"]` if present
and not null, else `reader_data["amp"]` likewise, else the inferred
`numpy.max(smooth_current) - hypamp`, where
`smooth_current = scipy_signal2d(current, 85)` (the smoother `sf` comes
from `ecode/tools.py`, outside this repository slice) and `numpy.max`
raises on an empty array (`none`). -/
def resolveAmp (sf : List ℚ → ℕ → List ℚ) (current : List ℚ)
    (config_data reader_data : CfgData) (hypamp : ℚ) : Option ℚ :=
  match config_data.amp with
  | some v => some v
  | none =>
    match reader_data.amp with
    | some v => some v
    | none =>
      match (sf current 85).max? with
      | some m => some (m - hypamp)
      | none => none

/-- `SineSpec.interpret(t, current, config_data, reader_data)`, over `ℚ`.
The helpers `base_current` and `scipy_signal2d` live in
`bluepyefe/ecode/tools.py`, which is not part of this repository slice;
they enter as the function parameters `bc` and `sf`.

Faithful to the source line by line: `dt = t[1]` (an `IndexError` when
`t` is shorter, modelled as `none`); the `ton` and `toff` branches set
the index values described at `tonIdx0`, `tonIdxAfterToff` and
`toffIdxOpt`; the `# hypamp` and `# amp` blocks are `resolveHypamp` and
`resolveAmp`; finally (`# Converting back to ms`) `ton` and `toff` are
converted to times by indexing into `t` (`t[int(round(self.ton))]`),
where `int(round(None))` raises a `TypeError` (modelled as `none`), and
`tend = len(t) * dt`. -/
def interpret (bc : List ℚ → ℚ) (sf : List ℚ → ℕ → List ℚ)
    (t current : List ℚ) (config_data reader_data : CfgData) :
    Option InterpResult :=
  match t.get? 1 with
  | none => none
  | some dt =>
    match resolveAmp sf current config_data reader_data
        (resolveHypamp bc current config_data reader_data) with
    | none => none
    | some amp =>
      match pyGetIdx t (tonIdxAfterToff config_data dt) with
      | none => none
      | some tonT =>
        match toffIdxOpt config_data dt with
        | none => none
        | some toffIdx =>
          match pyGetIdx t toffIdx with
          | none => none
          | some toffT =>
            some ⟨tonT, toffT, (t.length : ℚ) * dt, amp,
                  resolveHypamp bc current config_data reader_data, dt,
                  tonWarnings config_data ++ toffWarnings config_data⟩

/-- A trivial stand-in for `base_current` used to instantiate the
`bc` parameter at concrete inputs. -/
def bc0 : List ℚ → ℚ := fun l => l.headD 0

/-- A trivial stand-in for `scipy_signal2d` (identity smoothing) used to
instantiate the `sf` parameter at concrete inputs. -/
def sf0 : List ℚ → ℕ → List ℚ := fun l _ => l

/-- Modelled from the spec: the spec's resolution order for a stimulus
parameter — "(1) explicit value in `config_data` if present and not
null, (2) explicit value in `reader_data` if present and not null,
(3) inferred from the trace / (4) fallback", with the stage (3)/(4)
outcome abstracted as `rest`.  Stated for comparison against
`interpret`, which does not follow it for `ton`/`toff`. -/
def specOrderResolve (cfgVal readerVal : Option ℚ) (rest : ℚ) : ℚ :=
  match cfgVal with
  | some v => v
  | none => match readerVal with
    | some v => v
    | none => rest

/-! ## SineSpec stimulus regeneration (`sineSpec.py`, `generate`)

`generate` evaluates a transcendental sine sweep, so this part is
modelled over `ℝ` with `Real.sin`. -/

/-- The stored stimulus parameters `generate` reads. -/
structure GenParams where
  ton : ℝ
  toff : ℝ
  tend : ℝ
  amp : ℝ
  hypamp : ℝ
  dt : ℝ

/-- Python `int(x)` on a float: truncation toward zero. -/
noncomputable def pyTrunc (x : ℝ) : ℤ :=
  if 0 ≤ x then ⌊x⌋ else ⌈x⌉

/-- Number of samples of `numpy.arange(0.0, tend, dt)` for `dt > 0`. -/
noncomputable def genLen (p : GenParams) : ℕ :=
  (⌈p.tend / p.dt⌉).toNat

/-- `i`-th entry of the returned time vector `numpy.arange(0.0, tend, dt)`. -/
noncomputable def genT (p : GenParams) (i : ℕ) : ℝ :=
  (i : ℝ) * p.dt

/-- Argument of the sine at sample `i`:
`2.0 * pi * (1.0 + (1.0 / (5.15 - (t_sine - 0.1)))) * (t_sine - 0.1)`
with `t_sine = i * (dt / 1e3)` from `numpy.arange(0.0, tend/1e3, dt/1e3)`. -/
noncomputable def sineArg (p : GenParams) (i : ℕ) : ℝ :=
  2 * Real.pi * (1 + 1 / (5.15 - ((i : ℝ) * (p.dt / 1000) - 0.1))) *
    ((i : ℝ) * (p.dt / 1000) - 0.1)

/-- `i`-th entry of the current array built by `generate`:
the sine sweep `amp * sin(...)`, zeroed on `[:ton_idx]` and
`[toff_idx:]` (with Python slice semantics for negative indices over an
array of `genLen p` entries), then shifted by `hypamp`, with
`ton_idx = int(ton / dt)` and `toff_idx = int(toff / dt)`. -/
noncomputable def genCurrent (p : GenParams) (i : ℕ) : ℝ :=
  let n := genLen p
  let ton_idx := pyTrunc (p.ton / p.dt)
  let toff_idx := pyTrunc (p.toff / p.dt)
  let low : ℤ := if ton_idx < 0 then ton_idx + n else ton_idx
  let high : ℤ := if toff_idx < 0 then toff_idx + n else toff_idx
  (if (i : ℤ) < low then 0
   else if high ≤ (i : ℤ) then 0
   else p.amp * Real.sin (sineArg p i)) + p.hypamp

/-! ## Helper lemmas about the fold used for `numpy.min` -/

theorem foldl_min_mem (a : ℚ) (l : List ℚ) : l.foldl min a ∈ a :: l := by
  induction l generalizing a with
  | nil => simp
  | cons b bs ih =>
    have h := ih (min a b)
    rcases List.mem_cons.mp h with h1 | h2
    · rcases le_total a b with hab | hba
      · simp only [List.foldl_cons]
        rw [h1, min_eq_left hab]
        exact List.mem_cons_self _ _
      · simp only [List.foldl_cons]
        rw [h1, min_eq_right hba]
        exact List.mem_cons.mpr (Or.inr (List.mem_cons_self _ _))
    · exact List.mem_cons.mpr (Or.inr (List.mem_cons.mpr (Or.inr h2)))

theorem foldl_min_le (a : ℚ) (l : List ℚ) : ∀ x ∈ a :: l, l.foldl min a ≤ x := by
  induction l generalizing a with
  | nil => intro x hx; simp at hx; simp [hx]
  | cons b bs ih =>
    intro x hx
    have hbase : bs.foldl min (min a b) ≤ min a b :=
      ih (min a b) (min a b) (List.mem_cons_self _ _)
    simp only [List.foldl_cons]
    rcases List.mem_cons.mp hx with h1 | h2
    · subst h1
      exact le_trans hbase (min_le_left _ _)
    · rcases List.mem_cons.mp h2 with h3 | h4
      · subst h3
        exact le_trans hbase (min_le_right _ _)
      · exact ih (min a b) x (List.mem_cons.mpr (Or.inr h4))

/-! ## Claim theorems: cell aggregation -/

/-- C3: `compute_rheobase(protocols_rheobase)` sets `rheobase` to the
minimum stimulus amplitude among recordings whose protocol name is in
the designated set and whose spikecount is at least one; if no such
recording exists starting from a fresh cell, `rheobase` remains
`None`. -/
theorem compute_rheobase_min_spiking (c : Cell) (ps : List String) :
    ((c.recordings.filter (qualifies ps)).map Rec.amp ≠ [] →
      ∃ m, (compute_rheobase c ps).rheobase = some m ∧
        m ∈ (c.recordings.filter (qualifies ps)).map Rec.amp ∧
        ∀ a ∈ (c.recordings.filter (qualifies ps)).map Rec.amp, m ≤ a)
    ∧ (c.rheobase = none →
        (c.recordings.filter (qualifies ps)).map Rec.amp = [] →
        (compute_rheobase c ps).rheobase = none) := by
  constructor
  · intro hne
    cases hamps : (c.recordings.filter (qualifies ps)).map Rec.amp with
    | nil => exact absurd hamps hne
    | cons a rest =>
      refine ⟨rest.foldl min a, ?_, ?_, ?_⟩
      · simp only [compute_rheobase, hamps]
      · exact foldl_min_mem a rest
      · exact foldl_min_le a rest
  · intro hfresh hamps
    simp only [compute_rheobase, hamps, hfresh]

/-- C3 witness: amplitudes `[0.02, 0.05, 0.1]` with spikecounts
`[0, 1, 2]` on the designated protocol yield rheobase `0.05`. -/
theorem compute_rheobase_min_spiking_witness :
    ∃ m,
      (compute_rheobase
        ⟨"cellA",
         [⟨"IDRest", 1/50, 0, some 0, none, none⟩,
          ⟨"IDRest", 1/20, 0, some 1, none, none⟩,
          ⟨"IDRest", 1/10, 0, some 2, none, none⟩], none⟩
        ["IDRest"]).rheobase = some m ∧
      m ∈ (List.filter (qualifies ["IDRest"])
            [⟨"IDRest", 1/50, 0, some 0, none, none⟩,
             ⟨"IDRest", 1/20, 0, some 1, none, none⟩,
             ⟨"IDRest", 1/10, 0, some 2, none, none⟩]).map Rec.amp ∧
      ∀ a ∈ (List.filter (qualifies ["IDRest"])
            [⟨"IDRest", 1/50, 0, some 0, none, none⟩,
             ⟨"IDRest", 1/20, 0, some 1, none, none⟩,
             ⟨"IDRest", 1/10, 0, some 2, none, none⟩]).map Rec.amp, m ≤ a :=
  (compute_rheobase_min_spiking
    ⟨"cellA",
     [⟨"IDRest", 1/50, 0, some 0, none, none⟩,
      ⟨"IDRest", 1/20, 0, some 1, none, none⟩,
      ⟨"IDRest", 1/10, 0, some 2, none, none⟩], none⟩
    ["IDRest"]).1 (by decide)

/-- C5 (amended): after `compute_rheobase`, the rheobase is either
unchanged or equal to the amplitude of some qualifying recording — in
particular it can be negative or zero when amplitudes are, so the
claimed "never negative" invariant does not hold. -/
theorem compute_rheobase_value_provenance (c : Cell) (ps : List String) :
    (compute_rheobase c ps).rheobase = c.rheobase ∨
      ∃ r, r ∈ c.recordings ∧ qualifies ps r = true ∧
        (compute_rheobase c ps).rheobase = some r.amp := by
  cases hamps : (c.recordings.filter (qualifies ps)).map Rec.amp with
  | nil => left; simp only [compute_rheobase, hamps]
  | cons a rest =>
    right
    have hmem : rest.foldl min a ∈ a :: rest := foldl_min_mem a rest
    rw [← hamps] at hmem
    obtain ⟨r, hr, hre⟩ := List.mem_map.mp hmem
    have hrq := List.mem_filter.mp hr
    exact ⟨r, hrq.1, hrq.2, by simp only [compute_rheobase, hamps]; rw [hre]⟩

/-- C5 counterexample: a recording with negative amplitude and a spike
makes `compute_rheobase` set a negative rheobase, refuting the claim
that the rheobase is always `None` or strictly positive. -/
theorem compute_rheobase_negative_counterexample :
    (compute_rheobase
      ⟨"cellB", [⟨"IDRest", -1/2, 0, some 1, none, none⟩], none⟩
      ["IDRest"]).rheobase = some (-1/2) ∧ ((-1/2 : ℚ) < 0) := by
  constructor
  · norm_num [compute_rheobase, qualifies]
  · norm_num

/-- C10: if no recording qualifies (protocol in the designated set and
spikecount present and positive; a `None` spikecount does not qualify),
`compute_rheobase` leaves the rheobase field unchanged — an earlier
computed value is not reset. -/
theorem compute_rheobase_frame (c : Cell) (ps : List String)
    (h : ∀ r ∈ c.recordings, qualifies ps r = false) :
    (compute_rheobase c ps).rheobase = c.rheobase := by
  have hfil : c.recordings.filter (qualifies ps) = [] := by
    rw [List.filter_eq_nil_iff]
    intro r hr
    simp [h r hr]
  simp only [compute_rheobase, hfil, List.map_nil]

/-- C10 witness: a cell with a previously computed rheobase `0.05` and
only non-spiking recordings (spikecount `0` or still `None`) keeps
rheobase `0.05` after another `compute_rheobase` call. -/
theorem compute_rheobase_frame_witness :
    (compute_rheobase
      ⟨"cellC",
       [⟨"IDRest", 1/10, 0, some 0, none, none⟩,
        ⟨"IDRest", 1, 0, none, none, none⟩], some (1/20)⟩
      ["IDRest"]).rheobase = some (1/20) :=
  compute_rheobase_frame
    ⟨"cellC",
     [⟨"IDRest", 1/10, 0, some 0, none, none⟩,
      ⟨"IDRest", 1, 0, none, none, none⟩], some (1/20)⟩
    ["IDRest"] (by decide)

/-- C4 (amended): `Cell.compute_relative_amp` invokes the per-recording
`compute_relative_amp` (with `amp_rel = 100*amp/rheobase`,
`hypamp_rel = 100*hypamp/rheobase`) on every recording if and only if
the rheobase is a defined nonzero number — the source guard
`rheobase not in (0.0, None, False, numpy.nan)` also lets a negative
rheobase through; when the rheobase is `None` or `0`, it resets the
rheobase to `None`, warns, and leaves the recordings untouched. -/
theorem cell_compute_relative_amp_cases (c : Cell) :
    (∀ rb, c.rheobase = some rb → rb ≠ 0 →
        cell_compute_relative_amp c =
          ({ c with recordings := c.recordings.map (rec_compute_relative_amp rb) },
           false))
    ∧ (c.rheobase = none ∨ c.rheobase = some 0 →
        cell_compute_relative_amp c = ({ c with rheobase := none }, true))
    ∧ (∀ thr r, (rec_compute_relative_amp thr r).amp_rel = some (100 * r.amp / thr)
        ∧ (rec_compute_relative_amp thr r).hypamp_rel = some (100 * r.hypamp / thr)) := by
  refine ⟨?_, ?_, ?_⟩
  · intro rb hrb hne
    simp [cell_compute_relative_amp, hrb, hne]
  · rintro (hrb | hrb) <;> simp [cell_compute_relative_amp, hrb]
  · intro thr r
    exact ⟨rfl, rfl⟩

/-- C4 witness: with rheobase `2`, a recording `(amp 3, hypamp 1)` gets
`amp_rel 150` and `hypamp_rel 50`; with rheobase `None`, the recordings
are untouched (relative amplitudes stay `None`) and a warning is
emitted. -/
theorem cell_compute_relative_amp_cases_witness :
    cell_compute_relative_amp
        ⟨"cellD", [⟨"IDRest", 3, 1, some 2, none, none⟩], some 2⟩ =
      ({ (⟨"cellD", [⟨"IDRest", 3, 1, some 2, none, none⟩], some 2⟩ : Cell) with
          recordings :=
            [⟨"IDRest", 3, 1, some 2, none, none⟩].map (rec_compute_relative_amp 2) },
       false)
    ∧ cell_compute_relative_amp
        ⟨"cellE", [⟨"IDRest", 3, 1, some 2, none, none⟩], none⟩ =
      ({ (⟨"cellE", [⟨"IDRest", 3, 1, some 2, none, none⟩], none⟩ : Cell) with
          rheobase := none },
       true) :=
  ⟨(cell_compute_relative_amp_cases
      ⟨"cellD", [⟨"IDRest", 3, 1, some 2, none, none⟩], some 2⟩).1 2 rfl (by norm_num),
   (cell_compute_relative_amp_cases
      ⟨"cellE", [⟨"IDRest", 3, 1, some 2, none, none⟩], none⟩).2.1 (Or.inl rfl)⟩

/-- C4 counterexample: with rheobase `-1` (defined but not positive) the
source computes relative amplitudes (`amp_rel = -200`) instead of
resetting the rheobase to `None` and leaving the relative amplitudes
`None`, refuting the "if and only if ... positive" claim. -/
theorem cell_compute_relative_amp_negative_counterexample :
    (cell_compute_relative_amp
      ⟨"cellF", [⟨"IDRest", 2, 1, some 1, none, none⟩], some (-1)⟩).1.rheobase
        = some (-1)
    ∧ (cell_compute_relative_amp
        ⟨"cellF", [⟨"IDRest", 2, 1, some 1, none, none⟩], some (-1)⟩).1.recordings
        = [⟨"IDRest", 2, 1, some 1, some (-200), some (-100)⟩]
    ∧ (cell_compute_relative_amp
        ⟨"cellF", [⟨"IDRest", 2, 1, some 1, none, none⟩], some (-1)⟩).2 = false := by
  refine ⟨?_, ?_, ?_⟩ <;>
    norm_num [cell_compute_relative_amp, rec_compute_relative_amp]

/-! ## Shared lemmas about `interpret` -/

/-- When `config_data` has no usable `toff`, the fallback arm assigns
`5100` to `self.ton` and leaves `self.toff` as `None`, so the later
`t[int(round(self.toff))]` always raises: `interpret` never completes. -/
theorem interpret_none_of_toff_none (bc : List ℚ → ℚ) (sf : List ℚ → ℕ → List ℚ)
    (t current : List ℚ) (cfg rdr : CfgData) (h : cfg.toff = none) :
    interpret bc sf t current cfg rdr = none := by
  have hto : ∀ dt : ℚ, toffIdxOpt cfg dt = none := by
    intro dt
    simp [toffIdxOpt, h]
  unfold interpret
  split
  · rfl
  · split
    · rfl
    · split
      · rfl
      · rw [hto]

/-- Inversion of a successful `interpret` run into its intermediate
values. -/
theorem interpret_some_inv (bc : List ℚ → ℚ) (sf : List ℚ → ℕ → List ℚ)
    (t current : List ℚ) (cfg rdr : CfgData) (res : InterpResult)
    (h : interpret bc sf t current cfg rdr = some res) :
    ∃ dt amp tonT toffIdx toffT,
      t.get? 1 = some dt ∧
      resolveAmp sf current cfg rdr (resolveHypamp bc current cfg rdr) = some amp ∧
      pyGetIdx t (tonIdxAfterToff cfg dt) = some tonT ∧
      toffIdxOpt cfg dt = some toffIdx ∧
      pyGetIdx t toffIdx = some toffT ∧
      res = ⟨tonT, toffT, (t.length : ℚ) * dt, amp,
             resolveHypamp bc current cfg rdr, dt,
             tonWarnings cfg ++ toffWarnings cfg⟩ := by
  unfold interpret at h
  split at h
  · exact absurd h (by simp)
  · rename_i dt ht
    split at h
    · exact absurd h (by simp)
    · rename_i amp ha
      split at h
      · exact absurd h (by simp)
      · rename_i tonT hg
        split at h
        · exact absurd h (by simp)
        · rename_i toffIdx hto
          split at h
          · exact absurd h (by simp)
          · rename_i toffT hg2
            exact ⟨dt, amp, tonT, toffIdx, toffT, ht, ha, hg, hto, hg2,
                   (Option.some_inj.mp h).symm⟩

/-! ## Claim theorems: stimulus interpretation -/

/-- C1 (the code contradicts the claim): when `config_data` lacks a
usable `toff` entry, `interpret` never completes — the fallback arm of
the `toff` branch assigns `self.ton = 5100` instead of `self.toff`
(while warning that "toff ... will be set to 5100ms"), so `self.toff`
stays `None` and the conversion `t[int(round(self.toff))]` raises a
`TypeError`.  The claim that the run completes with `toff` a concrete
number fails on every input. -/
theorem interpret_missing_toff_never_completes
    (bc : List ℚ → ℚ) (sf : List ℚ → ℕ → List ℚ)
    (t current : List ℚ) (cfg rdr : CfgData) (h : cfg.toff = none) :
    interpret bc sf t current cfg rdr = none :=
  interpret_none_of_toff_none bc sf t current cfg rdr h

/-- C1 witness: a concrete trace and a config with `ton` but no `toff`
on which `interpret` aborts. -/
theorem interpret_missing_toff_never_completes_witness :
    interpret bc0 sf0 [0, 1] [0, 0]
      ⟨some 0, none, some 1, some 0⟩ ⟨none, none, none, none⟩ = none :=
  interpret_missing_toff_never_completes bc0 sf0 [0, 1] [0, 0]
    ⟨some 0, none, some 1, some 0⟩ ⟨none, none, none, none⟩ rfl

/-- C7 (the code contradicts the claim): the round-trip cannot recover
anything, because interpreting any trace — in particular one produced
by `generate()` — with empty metadata (the setting in which the
detection heuristics would be exercised) aborts in the `toff` fallback
branch instead of completing. -/
theorem interpret_roundtrip_aborts (bc : List ℚ → ℚ) (sf : List ℚ → ℕ → List ℚ)
    (t current : List ℚ) :
    interpret bc sf t current ⟨none, none, none, none⟩ ⟨none, none, none, none⟩ = none :=
  interpret_none_of_toff_none bc sf t current
    ⟨none, none, none, none⟩ ⟨none, none, none, none⟩ rfl

/-- C2 (amended): on a successful run, `hypamp` and `amp` follow the
resolution order `config_data`, else `reader_data`, else inferred from
the (smoothed) current trace, with no constant fallback; `ton` never
consults `reader_data` or the trace: absent from `config_data`, it is
resolved from the hard-coded fallback index `150` with a warning; and a
successful run requires `toff` to be present in `config_data` (its
fallback arm assigns `ton` instead and aborts the run). -/
theorem interpret_resolution_order (bc : List ℚ → ℚ) (sf : List ℚ → ℕ → List ℚ)
    (t current : List ℚ) (cfg rdr : CfgData) (res : InterpResult)
    (h : interpret bc sf t current cfg rdr = some res) :
    res.hypamp = cfg.hypamp.getD (rdr.hypamp.getD (bc current))
    ∧ (∀ a, cfg.amp = some a → res.amp = a)
    ∧ (cfg.amp = none → ∀ a, rdr.amp = some a → res.amp = a)
    ∧ (cfg.amp = none → rdr.amp = none →
        ∃ m, (sf current 85).max? = some m ∧ res.amp = m - res.hypamp)
    ∧ (cfg.ton = none →
        pyGetIdx t 150 = some res.ton ∧ tonWarning ∈ res.warnings)
    ∧ cfg.toff ≠ none := by
  obtain ⟨dt, amp, tonT, toffIdx, toffT, ht, ha, hg, hto, hg2, hres⟩ :=
    interpret_some_inv bc sf t current cfg rdr res h
  have htoff : cfg.toff ≠ none := by
    intro hn
    rw [toffIdxOpt, hn] at hto
    exact absurd hto (by simp)
  refine ⟨?_, ?_, ?_, ?_, ?_, htoff⟩
  · rw [hres]
    show resolveHypamp bc current cfg rdr = _
    rw [resolveHypamp]
    rcases cfg.hypamp with _ | cv
    · rcases rdr.hypamp with _ | rv <;> simp
    · simp
  · intro a haa
    rw [hres]
    show amp = a
    simp only [resolveAmp, haa, Option.some.injEq] at ha
    exact ha.symm
  · intro hca a haa
    rw [hres]
    show amp = a
    simp only [resolveAmp, hca, haa, Option.some.injEq] at ha
    exact ha.symm
  · intro hca hra
    rw [hres]
    show ∃ m, _ ∧ amp = m - resolveHypamp bc current cfg rdr
    simp only [resolveAmp, hca, hra] at ha
    rcases hm : (sf current 85).max? with _ | m
    · simp only [hm] at ha
      exact absurd ha (by simp)
    · simp only [hm, Option.some.injEq] at ha
      exact ⟨m, rfl, ha.symm⟩
  · intro hct
    rw [hres]
    constructor
    · show pyGetIdx t 150 = some tonT
      rcases hcf : cfg.toff with _ | tv
      · exact absurd hcf htoff
      · rw [tonIdxAfterToff, hcf, tonIdx0, hct] at hg
        exact hg
    · show tonWarning ∈ tonWarnings cfg ++ toffWarnings cfg
      rw [tonWarnings, hct]
      simp

/-- C2 witness: a successful concrete run in which `hypamp` comes from
`config_data` (value `5`) and `amp`, absent from `config_data`, comes
from `reader_data` (value `7`). -/
theorem interpret_resolution_order_witness :
    ((⟨0, 1, 2, 7, 5, 1, []⟩ : InterpResult).hypamp =
      (some (5 : ℚ)).getD ((none : Option ℚ).getD (bc0 [3, 3])))
    ∧ (⟨0, 1, 2, 7, 5, 1, []⟩ : InterpResult).amp = 7 := by
  have h := interpret_resolution_order bc0 sf0 [0, 1] [3, 3]
    ⟨some 0, some 1, none, some 5⟩ ⟨none, none, some 7, none⟩
    ⟨0, 1, 2, 7, 5, 1, []⟩
    (by norm_num [interpret, resolveAmp, resolveHypamp, tonIdxAfterToff, tonIdx0,
      toffIdxOpt, tonWarnings, toffWarnings, pyGetIdx, pyRound, bc0, sf0])
  exact ⟨h.1, h.2.2.1 rfl 7 rfl⟩

/-- C2 counterexample: `config_data` lacks `ton` while `reader_data`
supplies `ton = 2`; the spec's resolution order demands the value `2`
(stage 2, whatever later stages would give), but the source ignores
`reader_data` for `ton` and uses the fallback index `150`, yielding
`ton = t[150] = 150 ≠ 2`. -/
theorem interpret_resolution_order_counterexample :
    interpret bc0 sf0 (List.map (fun n : ℕ => (n : ℚ)) (List.range 151)) [0, 0]
        ⟨none, some 5, some 1, some 1⟩ ⟨some 2, none, none, none⟩ =
      some ⟨150, 5, 151, 1, 1, 1, [tonWarning]⟩
    ∧ specOrderResolve none (some 2) 0 = 2
    ∧ specOrderResolve none (some 2) 999 = 2
    ∧ ((150 : ℚ) ≠ 2) := by
  refine ⟨?_, rfl, rfl, by norm_num⟩
  have ht : (List.map (fun n : ℕ => (n : ℚ)) (List.range 151)).get? 1 = some 1 := by
    simp only [List.get?_eq_getElem?, List.getElem?_map, List.getElem?_range]
    norm_num
  have h150 :
      pyGetIdx (List.map (fun n : ℕ => (n : ℚ)) (List.range 151)) 150 = some 150 := by
    simp [pyGetIdx, List.get?_eq_getElem?, List.getElem?_map, List.getElem?_range]
  have h5 :
      pyGetIdx (List.map (fun n : ℕ => (n : ℚ)) (List.range 151)) 5 = some 5 := by
    simp [pyGetIdx, List.get?_eq_getElem?, List.getElem?_map, List.getElem?_range]
  have hlen : (List.map (fun n : ℕ => (n : ℚ)) (List.range 151)).length = 151 := by
    simp only [List.length_map, List.length_range]
  unfold interpret
  rw [ht]
  norm_num [resolveAmp, resolveHypamp, tonIdxAfterToff, tonIdx0, toffIdxOpt,
    tonWarnings, toffWarnings, pyRound, h150, h5, hlen]

/-- C8 (amended): the derived sampling interval is `dt = t[1]`, the
second entry of the time vector (which equals `t[1] - t[0]` only when
the vector starts at `0`). -/
theorem interpret_dt_second_entry (bc : List ℚ → ℚ) (sf : List ℚ → ℕ → List ℚ)
    (t current : List ℚ) (cfg rdr : CfgData) (res : InterpResult)
    (h : interpret bc sf t current cfg rdr = some res) :
    t.get? 1 = some res.dt := by
  obtain ⟨dt, amp, tonT, toffIdx, toffT, ht, -, -, -, -, hres⟩ :=
    interpret_some_inv bc sf t current cfg rdr res h
  rw [hres]
  exact ht

/-- C8 witness: a successful concrete run with `t = [0, 1]` whose
derived `dt` is the second entry `1`. -/
theorem interpret_dt_second_entry_witness :
    ([0, 1] : List ℚ).get? 1 =
      some (⟨0, 1, 2, 1, 0, 1, []⟩ : InterpResult).dt :=
  interpret_dt_second_entry bc0 sf0 [0, 1] [0, 0]
    ⟨some 0, some 1, some 1, some 0⟩ ⟨none, none, none, none⟩
    ⟨0, 1, 2, 1, 0, 1, []⟩
    (by norm_num [interpret, resolveAmp, resolveHypamp, tonIdxAfterToff, tonIdx0,
      toffIdxOpt, tonWarnings, toffWarnings, pyGetIdx, pyRound, bc0, sf0])

/-- C8 counterexample: for the accepted time vector `t = [1, 2]`
(monotonic, fixed sampling interval `1`, start value `1`), `interpret`
derives `dt = t[1] = 2`, not `t[1] - t[0] = 1`. -/
theorem interpret_dt_second_entry_counterexample :
    interpret bc0 sf0 [1, 2] [0, 0]
        ⟨some 2, some 2, some 1, some 0⟩ ⟨none, none, none, none⟩ =
      some ⟨2, 2, 4, 1, 0, 2, []⟩
    ∧ ((⟨2, 2, 4, 1, 0, 2, []⟩ : InterpResult).dt ≠ (2 : ℚ) - 1) := by
  constructor
  · norm_num [interpret, resolveAmp, resolveHypamp, tonIdxAfterToff, tonIdx0,
      toffIdxOpt, tonWarnings, toffWarnings, pyGetIdx, pyRound, bc0, sf0]
  · norm_num

/-! ## Claim theorems: reader dispatch -/

/-- C9 (amended): with a custom reader the custom reader is used; with
no custom reader the format is selected by substring containment
(`".abf" in filename`, then `".ibw"`, then `".nwb"`), and the
documented "unknown format, no custom reader provided" error is raised
exactly when the file name contains none of those substrings; a
metadata mapping with neither `v_file` nor `filepath` and no custom
reader hits an unbound local (`nameError`) instead. -/
theorem reader_dispatch (v_file filepath : Option String) (f : String)
    (h1 : strContains ".abf" f = false) (h2 : strContains ".ibw" f = false)
    (h3 : strContains ".nwb" f = false) :
    reader true v_file filepath = ReaderOutcome.custom
    ∧ reader false (some f) none = ReaderOutcome.unknownFormatError
    ∧ reader false none none = ReaderOutcome.nameError := by
  refine ⟨by simp [reader], ?_, by simp [reader]⟩
  simp [reader, h1, h2, h3]

/-- C9 witness: the file name `data.txt` matches no supported format and
yields the documented unknown-format error. -/
theorem reader_dispatch_witness :
    reader true none (some "data.txt") = ReaderOutcome.custom
    ∧ reader false (some "data.txt") none = ReaderOutcome.unknownFormatError
    ∧ reader false none none = ReaderOutcome.nameError :=
  reader_dispatch none (some "data.txt") "data.txt"
    (by decide) (by decide) (by decide)

/-- C9 counterexample: `trace.abf.bak` has a suffix matching none of the
supported formats, yet `reader` dispatches to the axon reader (the
source tests substring containment, not the suffix), refuting the claim
that such names raise the documented unknown-format error. -/
theorem reader_dispatch_suffix_counterexample :
    reader false (some "trace.abf.bak") none = ReaderOutcome.axon
    ∧ strEndsWith ".abf" "trace.abf.bak" = false
    ∧ strEndsWith ".ibw" "trace.abf.bak" = false
    ∧ strEndsWith ".nwb" "trace.abf.bak" = false
    ∧ ReaderOutcome.axon ≠ ReaderOutcome.unknownFormatError := by
  refine ⟨?_, ?_, ?_, ?_, ?_⟩ <;> decide

/-! ## Claim theorems: stimulus regeneration -/

/-- For `-1/2 < x < 0` the sine of `2*pi*x` is negative. -/
theorem sin_two_pi_mul_neg (x : ℝ) (h1 : x < 0) (h2 : -(1/2) < x) :
    Real.sin (2 * Real.pi * x) < 0 := by
  apply Real.sin_neg_of_neg_of_neg_pi_lt
  · nlinarith [Real.pi_pos]
  · nlinarith [Real.pi_pos]

/-- C6 (amended): for stimulus parameters whose `ton` and `toff` are
(nonnegative) integer multiples of `dt` — as produced by `interpret`,
which reads them off the time grid — `generate` returns the time vector
`t[i] = i * dt` ranging over `[0, tend)` and a current array equal to
`hypamp` at every sample outside `[ton, toff)`.  (For `ton` not on the
sample grid the boundary sample is misclassified, see the
counterexample.) -/
theorem generate_outside_window (p : GenParams) (a b : ℕ) (hdt : 0 < p.dt)
    (hton : p.ton = (a : ℝ) * p.dt) (htoff : p.toff = (b : ℝ) * p.dt)
    (i : ℕ) (hi : i < genLen p) :
    genT p i = (i : ℝ) * p.dt
    ∧ genT p i < p.tend
    ∧ ((genT p i < p.ton ∨ p.toff ≤ genT p i) → genCurrent p i = p.hypamp) := by
  have hdt0 : p.dt ≠ 0 := ne_of_gt hdt
  refine ⟨rfl, ?_, ?_⟩
  · have h1 : (i : ℤ) < ⌈p.tend / p.dt⌉ := by
      unfold genLen at hi
      exact Int.lt_toNat.mp hi
    have h2 : (i : ℝ) < p.tend / p.dt := by
      exact_mod_cast Int.lt_ceil.mp h1
    calc genT p i = (i : ℝ) * p.dt := rfl
      _ < (p.tend / p.dt) * p.dt := mul_lt_mul_of_pos_right h2 hdt
      _ = p.tend := div_mul_cancel₀ _ hdt0
  · intro hout
    have hta : pyTrunc (p.ton / p.dt) = (a : ℤ) := by
      rw [hton, mul_div_cancel_right₀ _ hdt0, pyTrunc,
        if_pos (Nat.cast_nonneg a), Int.floor_natCast]
    have htb : pyTrunc (p.toff / p.dt) = (b : ℤ) := by
      rw [htoff, mul_div_cancel_right₀ _ hdt0, pyTrunc,
        if_pos (Nat.cast_nonneg b), Int.floor_natCast]
    have hla : ¬((a : ℤ) < 0) := not_lt.mpr (Int.natCast_nonneg a)
    have hlb : ¬((b : ℤ) < 0) := not_lt.mpr (Int.natCast_nonneg b)
    simp only [genCurrent, hta, htb, if_neg hla, if_neg hlb]
    rcases hout with h | h
    · have hia : (i : ℝ) < (a : ℝ) := by
        rw [hton] at h
        exact lt_of_mul_lt_mul_right h (le_of_lt hdt)
      have hia' : (i : ℤ) < (a : ℤ) := by exact_mod_cast hia
      rw [if_pos hia', zero_add]
    · have hbi : (b : ℝ) ≤ (i : ℝ) := by
        rw [htoff] at h
        exact le_of_mul_le_mul_right h hdt
      have hbi' : (b : ℤ) ≤ (i : ℤ) := by exact_mod_cast hbi
      by_cases hia : (i : ℤ) < (a : ℤ)
      · rw [if_pos hia, zero_add]
      · rw [if_neg hia, if_pos hbi', zero_add]

/-- C6 witness: for parameters `ton = 2`, `toff = 3`, `tend = 5`,
`amp = 1`, `hypamp = 4`, `dt = 1`, the sample at index `1` (time `1`,
before the onset) carries exactly the holding current `4`. -/
theorem generate_outside_window_witness :
    genCurrent ⟨2, 3, 5, 1, 4, 1⟩ 1 = (4 : ℝ) := by
  have h := generate_outside_window ⟨2, 3, 5, 1, 4, 1⟩ 2 3 (by norm_num)
    (by norm_num) (by norm_num) 1 (by norm_num [genLen])
  exact h.2.2 (Or.inl (by norm_num [genT]))

/-- C6 counterexample: with `ton = 1.5` not on the sample grid
(`dt = 1`), the sample at index `1` (time `1 < ton`, outside the claimed
window `[ton, toff)`) does not equal `hypamp`: `int(ton/dt) = 1` leaves
index `1` un-zeroed, and the sine factor there is strictly negative
while `hypamp = 0`.  The unqualified claim over all concrete parameters
is false. -/
theorem generate_outside_window_counterexample :
    genT ⟨3/2, 3, 5, 1, 0, 1⟩ 1 < (⟨3/2, 3, 5, 1, 0, 1⟩ : GenParams).ton
    ∧ 1 < genLen ⟨3/2, 3, 5, 1, 0, 1⟩
    ∧ genCurrent ⟨3/2, 3, 5, 1, 0, 1⟩ 1 ≠ (⟨3/2, 3, 5, 1, 0, 1⟩ : GenParams).hypamp := by
  refine ⟨by norm_num [genT], by norm_num [genLen], ?_⟩
  have hval : genCurrent ⟨3/2, 3, 5, 1, 0, 1⟩ 1 =
      Real.sin (sineArg ⟨3/2, 3, 5, 1, 0, 1⟩ 1) := by
    simp only [genCurrent]
    norm_num [pyTrunc]
  have hform : sineArg ⟨3/2, 3, 5, 1, 0, 1⟩ 1 =
      2 * Real.pi *
        ((1 + 1 / (5.15 - (1 * ((1 : ℝ) / 1000) - 0.1))) *
          (1 * ((1 : ℝ) / 1000) - 0.1)) := by
    simp only [sineArg]
    push_cast
    ring
  have hsin : Real.sin (sineArg ⟨3/2, 3, 5, 1, 0, 1⟩ 1) < 0 := by
    rw [hform]
    apply sin_two_pi_mul_neg
    · norm_num
    · norm_num
  rw [hval]
  exact ne_of_lt hsin

end BluePyEfe
